import Mathlib

/-!
Shallow embedding of the Books-ETL pipeline (`src/main.py`): the record
normalizer (`extract_book_data` field handling, `convert_to_pounds`), the
dataset reconciler (`transform_data`), and the warehouse builder
(`build_data_warehouse`), together with theorems checking the specification's
claims against these definitions.

Python strings are modelled as `List Char`; nullable values (Python `None`,
pandas `NaN`) as `Option`; monetary values as exact rationals `ℚ`.
-/

namespace BooksETL

/-! ### Python string primitives -/

/-- The whitespace characters removed by Python's `str.strip()`. -/
def pyIsSpace (c : Char) : Bool :=
  c = ' ' || c = '\t' || c = '\n' || c = '\x0d' || c = '\x0b' || c = '\x0c'

/-- Python `str.strip()`: drop leading and trailing whitespace. -/
def pyStrip (l : List Char) : List Char :=
  ((l.dropWhile pyIsSpace).reverse.dropWhile pyIsSpace).reverse

/-- Numeric value of a list of decimal digit characters (most significant first). -/
def digitsVal (ds : List Char) : ℕ :=
  ds.foldl (fun a c => 10 * a + (c.toNat - 48)) 0

/-- Unsigned decimal literal: digits with an optional single dot, at least one
digit overall (`"10"`, `"10."`, `".5"`); anything else fails. -/
def parseUnsigned (t : List Char) : Option ℚ :=
  let intPart := t.takeWhile (fun c => c.isDigit)
  let rest := t.dropWhile (fun c => c.isDigit)
  match rest with
  | [] => if intPart.isEmpty then none else some (digitsVal intPart)
  | '.' :: frac =>
      if frac.all (fun c => c.isDigit) && !(intPart.isEmpty && frac.isEmpty) then
        some ((digitsVal intPart : ℚ) + (digitsVal frac : ℚ) / 10 ^ frac.length)
      else none
  | _ => none

/-- Modelled from Python's built-in `float(str)` as used by
`convert_to_pounds`: strips whitespace, accepts an optional sign and a plain
decimal literal, and fails (the code catches the `ValueError`) otherwise.
Exponent, `inf`/`nan` and underscore forms are modelled as failures; the
pipeline's price strings never use them. -/
def pyFloat? (s : List Char) : Option ℚ :=
  let t := pyStrip s
  match t with
  | '+' :: u => parseUnsigned u
  | '-' :: u => (parseUnsigned u).map (fun q => -q)
  | _ => parseUnsigned t

/-- Modelled from Python's built-in `int(str)`: strips whitespace, accepts an
optional sign followed by one or more digits, and fails otherwise. -/
def pyInt? (s : List Char) : Option ℤ :=
  let t := pyStrip s
  match t with
  | '+' :: u => if !u.isEmpty && u.all (fun c => c.isDigit) then some (digitsVal u) else none
  | '-' :: u => if !u.isEmpty && u.all (fun c => c.isDigit) then some (-(digitsVal u : ℤ)) else none
  | _ => if !t.isEmpty && t.all (fun c => c.isDigit) then some (digitsVal t) else none

/-- Modelled from `re.search(r'(\d+)', s)` followed by `int(...)` in
`extract_book_data`: the value of the first maximal run of digits, if any. -/
def firstIntRun : List Char → Option ℕ
  | [] => none
  | c :: rest =>
      if c.isDigit then some (digitsVal (c :: rest.takeWhile (fun d => d.isDigit)))
      else firstIntRun rest

/-- Round half to even, as Python's built-in `round` (idealized over exact
rationals; the source operates on binary floats). -/
def roundHalfEven (x : ℚ) : ℤ :=
  let f := ⌊x⌋
  let r := x - f
  if r < 1/2 then f else if 1/2 < r then f + 1 else if f % 2 = 0 then f else f + 1

/-- Python `round(x, 2)` over exact rationals. -/
def pyRound2 (x : ℚ) : ℚ := (roundHalfEven (x * 100) : ℚ) / 100

/-- `a.isPrefixCh b`: the first list is a prefix of the second (over `Char`). -/
def isPrefixCh : List Char → List Char → Bool
  | [], _ => true
  | _ :: _, [] => false
  | a :: as, b :: bs => a = b && isPrefixCh as bs

/-- Python's substring test `needle in hay`. -/
def hasSubstr (needle : List Char) : List Char → Bool
  | [] => needle.isEmpty
  | c :: rest => isPrefixCh needle (c :: rest) || hasSubstr needle rest

/-! ### Record Normalizer (`convert_to_pounds` and `extract_book_data` fields) -/

/-- The branch structure of `convert_to_pounds` after the mojibake/whitespace
strip: a `'£'`-prefixed value parses as a float directly, a `'$'`-prefixed
value parses as a float then is converted at the fixed rate `0.75` and rounded
to 2 decimal places, any other prefix yields `none`.  `str.replace(sym, '')`
with a one-character pattern is `List.filter`. -/
def convertCore (t : List Char) : Option ℚ :=
  match t with
  | '£' :: _ => pyFloat? (t.filter (fun c => c ≠ '£'))
  | '$' :: _ => (pyFloat? (t.filter (fun c => c ≠ '$'))).map (fun v => pyRound2 (v * (3/4)))
  | _ => none

/-- `convert_to_pounds` (src/main.py:142-166): `None`/`NaN` and empty strings
give `none`; otherwise the string is cleaned of `'Â'` artifacts, stripped, and
dispatched on its currency prefix. -/
def convert_to_pounds (s : Option String) : Option ℚ :=
  match s with
  | none => none
  | some str =>
      if str.data.isEmpty then none
      else convertCore (pyStrip (str.data.filter (fun c => c ≠ 'Â')))

/-- The `rating_map` dict of `transform_data` (src/main.py:184). -/
def rating_map (s : String) : Option ℤ :=
  if s = "One" then some 1
  else if s = "Two" then some 2
  else if s = "Three" then some 3
  else if s = "Four" then some 4
  else if s = "Five" then some 5
  else none

/-- `df['rating'].map(rating_map).fillna(0).astype(int)` applied to one value
(src/main.py:185): unmapped labels and absent values become `0`. -/
def mapRatingVal (r : Option String) : ℤ :=
  match r with
  | none => 0
  | some s => (rating_map s).getD 0

/-- `lambda x: True if x and "In stock" in x else False` (src/main.py:188);
an absent value (Python `None`, falsy) gives `False`. -/
def availabilityOf (x : Option String) : Bool :=
  match x with
  | none => false
  | some s => !s.data.isEmpty && hasSubstr "In stock".data s.data

/-- Quantity extraction in `extract_book_data` (src/main.py:92-96): the first
integer substring of the availability detail text, else `none`. -/
def available_quantity_of (detail : Option String) : Option ℤ :=
  match detail with
  | none => none
  | some s => (firstIntRun s.data).map (fun n => (n : ℤ))

/-- Review-count normalization in `extract_book_data` (src/main.py:98-102):
`int(...)` with the exception handler defaulting to `0`, and `None` mapped to
`0` before the conversion is attempted. -/
def no_of_reviews_of (s : Option String) : ℤ :=
  match s with
  | none => 0
  | some t =>
      match pyInt? t.data with
      | some n => n
      | none => 0

/-! ### Dataset Reconciler (`transform_data`) -/

/-- One raw record as assembled by `extract_book_data` (src/main.py:105-121):
scraped string fields are nullable strings, `available_quantity` and
`no_of_reviews` are already typed by the extractor. -/
structure RawBook where
  title : Option String
  price : Option String
  rating : Option String
  availability : Option String
  category : Option String
  book_url : Option String
  book_thumbnail_url : Option String
  product_description : Option String
  upc : Option String
  product_type : Option String
  price_excl_tax : Option String
  price_incl_tax : Option String
  tax : Option String
  available_quantity : Option ℤ
  no_of_reviews : ℤ
deriving DecidableEq

/-- A record after the four price columns have been converted to pounds
(src/main.py:168-174); the remaining fields are still raw. -/
structure Book where
  title : Option String
  price : Option ℚ
  rating : Option String
  availability : Option String
  category : Option String
  book_url : Option String
  book_thumbnail_url : Option String
  product_description : Option String
  upc : Option String
  product_type : Option String
  price_excl_tax : Option ℚ
  price_incl_tax : Option ℚ
  tax : Option ℚ
  available_quantity : Option ℤ
  no_of_reviews : ℤ
deriving DecidableEq

/-- A fully reconciled record, as returned by `transform_data`. -/
structure CleanBook where
  title : Option String
  price : Option ℚ
  rating : ℤ
  availability : Bool
  category : String
  book_url : Option String
  book_thumbnail_url : Option String
  product_description : Option String
  upc : Option String
  product_type : String
  price_excl_tax : Option ℚ
  price_incl_tax : Option ℚ
  tax : Option ℚ
  available_quantity : ℤ
  no_of_reviews : ℤ
deriving DecidableEq

/-- `df.drop_duplicates()` (src/main.py:139): remove exact duplicates across
all fields, keeping the first occurrence. -/
def dropDupAux [DecidableEq α] (seen : List α) : List α → List α
  | [] => []
  | x :: xs => if x ∈ seen then dropDupAux seen xs else x :: dropDupAux (x :: seen) xs

/-- `df.drop_duplicates()` on a whole collection. -/
def dropDup [DecidableEq α] (l : List α) : List α := dropDupAux [] l

/-- The four `df[field].apply(convert_to_pounds)` column assignments
(src/main.py:168-174) applied to one record. -/
def convertPrices (r : RawBook) : Book :=
  { title := r.title
    price := convert_to_pounds r.price
    rating := r.rating
    availability := r.availability
    category := r.category
    book_url := r.book_url
    book_thumbnail_url := r.book_thumbnail_url
    product_description := r.product_description
    upc := r.upc
    product_type := r.product_type
    price_excl_tax := convert_to_pounds r.price_excl_tax
    price_incl_tax := convert_to_pounds r.price_incl_tax
    tax := convert_to_pounds r.tax
    available_quantity := r.available_quantity
    no_of_reviews := r.no_of_reviews }

/-- The per-category mean of the non-null values of one price field:
`x.mean()` of the grouped column slice (`none` when the group has no non-null
value, pandas' all-`NaN` mean). -/
def categoryMean (l : List Book) (get : Book → Option ℚ) (c : String) : Option ℚ :=
  let vals := (l.filter (fun b => b.category = some c)).filterMap get
  if vals.isEmpty then none else some (vals.sum / vals.length)

/-- One record's new value under
`df[field] = df.groupby('category')[field].transform(lambda x: x.fillna(x.mean()))`
(src/main.py:180-181).  `groupby` drops null keys, and the transform result is
re-aligned on the original index, so a record whose `category` is null
receives `NaN` in the assigned column; in-group records keep a present value
and have a null value filled with the group mean. -/
def imputeStep (l : List Book) (get : Book → Option ℚ) (set : Book → Option ℚ → Book)
    (b : Book) : Book :=
  match b.category with
  | none => set b none
  | some c =>
      match get b with
      | some v => set b (some v)
      | none => set b (categoryMean l get c)

/-- The whole-column assignment of src/main.py:181 for one field. -/
def imputeField (get : Book → Option ℚ) (set : Book → Option ℚ → Book)
    (l : List Book) : List Book :=
  l.map (imputeStep l get set)

/-- Imputation of the `price` column (first iteration of src/main.py:180). -/
def imputePrice (l : List Book) : List Book :=
  imputeField (fun b => b.price) (fun b v => { b with price := v }) l

/-- Imputation of the `price_excl_tax` column (second iteration). -/
def imputeExcl (l : List Book) : List Book :=
  imputeField (fun b => b.price_excl_tax) (fun b v => { b with price_excl_tax := v }) l

/-- Imputation of the `price_incl_tax` column (third iteration). -/
def imputeIncl (l : List Book) : List Book :=
  imputeField (fun b => b.price_incl_tax) (fun b v => { b with price_incl_tax := v }) l

/-- Imputation of the `tax` column (fourth iteration). -/
def imputeTaxF (l : List Book) : List Book :=
  imputeField (fun b => b.tax) (fun b v => { b with tax := v }) l

/-- The group-wise imputation loop over the four price fields, in source
order (src/main.py:179-181). -/
def imputeAll (l : List Book) : List Book :=
  imputeTaxF (imputeIncl (imputeExcl (imputePrice l)))

/-- The image of one record under the whole imputation loop: the four
per-column steps composed, each computing its group means over the collection
it receives (`imputeAll l = l.map (imputeImage l)`). -/
def imputeImage (l : List Book) (b : Book) : Book :=
  imputeStep (imputeIncl (imputeExcl (imputePrice l)))
    (fun x => x.tax) (fun x v => { x with tax := v })
    (imputeStep (imputeExcl (imputePrice l))
      (fun x => x.price_incl_tax) (fun x v => { x with price_incl_tax := v })
      (imputeStep (imputePrice l)
        (fun x => x.price_excl_tax) (fun x v => { x with price_excl_tax := v })
        (imputeStep l (fun x => x.price) (fun x v => { x with price := v }) b)))

/-- The independent per-column defaulting steps of src/main.py:183-197, fused
into one record map: rating mapping, availability normalization, category and
product-type defaults, quantity coercion. -/
def applyDefaults (b : Book) : CleanBook :=
  { title := b.title
    price := b.price
    rating := mapRatingVal b.rating
    availability := availabilityOf b.availability
    category := b.category.getD "Others"
    book_url := b.book_url
    book_thumbnail_url := b.book_thumbnail_url
    product_description := b.product_description
    upc := b.upc
    product_type := b.product_type.getD "Books"
    price_excl_tax := b.price_excl_tax
    price_incl_tax := b.price_incl_tax
    tax := b.tax
    available_quantity := b.available_quantity.getD 0
    no_of_reviews := b.no_of_reviews }

/-- Subtraction over nullable columns: `NaN` propagates. -/
def optSub (a b : Option ℚ) : Option ℚ :=
  match a, b with
  | some x, some y => some (x - y)
  | _, _ => none

/-- The fixed tolerance of src/main.py:201. -/
def tolerance : ℚ := 1/100

/-- `df['price_diff'] = df['price_incl_tax'] - df['tax'] - df['price_excl_tax']`
(src/main.py:200) for one record. -/
def price_diff (b : CleanBook) : Option ℚ :=
  optSub (optSub b.price_incl_tax b.tax) b.price_excl_tax

/-- `abs(df['price_diff']) > tolerance` for one record; a `NaN` difference
compares false. -/
def taxInconsistent (b : CleanBook) : Bool :=
  match price_diff b with
  | some d => decide (tolerance < |d|)
  | none => false

/-- The tax-consistency repair applied to one row (src/main.py:206): rows
beyond tolerance get `price_excl_tax := price_incl_tax - tax`; all other rows
are unchanged. -/
def taxFix (b : CleanBook) : CleanBook :=
  if taxInconsistent b then { b with price_excl_tax := optSub b.price_incl_tax b.tax } else b

/-- The tax-consistency repair over the collection (src/main.py:199-207). -/
def taxRepair (l : List CleanBook) : List CleanBook := l.map taxFix

/-- `df['price_mismatch'] = abs(df['price'] - df['price_incl_tax'])`
(src/main.py:210) for one record. -/
def price_mismatch (b : CleanBook) : Option ℚ :=
  (optSub b.price b.price_incl_tax).map (fun d => |d|)

/-- `df['price_mismatch'] > tolerance` for one record; `NaN` compares false. -/
def priceInconsistent (b : CleanBook) : Bool :=
  match price_mismatch b with
  | some m => decide (tolerance < m)
  | none => false

/-- The price-mismatch repair applied to one row (src/main.py:215): rows
beyond tolerance get `price := price_incl_tax`; all other rows are
unchanged. -/
def priceFix (b : CleanBook) : CleanBook :=
  if priceInconsistent b then { b with price := b.price_incl_tax } else b

/-- The price-mismatch repair over the collection (src/main.py:209-216). -/
def priceRepair (l : List CleanBook) : List CleanBook := l.map priceFix

/-- `transform_data` (src/main.py:135-218): de-duplication, price conversion,
title-null drop, group-wise imputation, per-column defaulting, tax-consistency
repair, price-mismatch repair, in source order. -/
def transform_data (books : List RawBook) : List CleanBook :=
  let deduped := dropDup books
  let converted := deduped.map convertPrices
  let titled := converted.filter (fun b => b.title ≠ none)
  let imputed := imputeAll titled
  let defaulted := imputed.map applyDefaults
  priceRepair (taxRepair defaulted)

/-! ### Warehouse builder (`build_data_warehouse`)

The staging table `raw_books` is modelled as a list of rows; each dimension
table as a list whose positions are the surrogate ids.  `title`, `category`
and `product_type` are non-null in staging (`title` by the `NOT NULL`
constraint, the others by the reconciler's defaulting). -/

/-- One row of the staging table `raw_books` (src/main.py:234-254). -/
structure StagingRow where
  title : String
  price : Option ℚ
  rating : ℤ
  availability : Bool
  category : String
  book_url : Option String
  book_thumbnail_url : Option String
  product_description : Option String
  upc : Option String
  product_type : String
  price_excl_tax : Option ℚ
  price_incl_tax : Option ℚ
  tax : Option ℚ
  available_quantity : ℤ
  no_of_reviews : ℤ
deriving DecidableEq

/-- One row of the `books_details` dimension (src/main.py:316-326). -/
structure DetailRow where
  title : String
  upc : Option String
  product_description : Option String
  book_url : Option String
  book_thumbnail_url : Option String
  no_of_reviews : ℤ
deriving DecidableEq

/-- The columns of `books_details` taken from one staging row
(src/main.py:377-386). -/
def detailOf (rb : StagingRow) : DetailRow :=
  { title := rb.title
    upc := rb.upc
    product_description := rb.product_description
    book_url := rb.book_url
    book_thumbnail_url := rb.book_thumbnail_url
    no_of_reviews := rb.no_of_reviews }

/-- `CASE WHEN availability THEN 'In Stock' ELSE 'Out of Stock' END`
(src/main.py:402, 428). -/
def availLabel (rb : StagingRow) : String :=
  if rb.availability then "In Stock" else "Out of Stock"

/-- The five dimension tables of the star schema: each list position is the
row's surrogate id; the scalar dimensions are lists of their natural keys. -/
structure Dims where
  product_type : List String
  books_details : List DetailRow
  category_info : List String
  rating_info : List ℤ
  availability_info : List String
deriving DecidableEq

/-- `INSERT INTO dim SELECT DISTINCT key FROM raw_books ON CONFLICT DO NOTHING`
(src/main.py:371-404): append the distinct staging keys that are not already
present; a conflict with an existing natural key inserts nothing and is not an
error. -/
def populateKeyed [DecidableEq α] (table : List α) (keys : List α) : List α :=
  table ++ keys.dedup.filter (fun k => decide (k ∉ table))

/-- The dimension-population step of `build_data_warehouse`
(src/main.py:368-405).  `books_details` alone is populated by a plain
`INSERT ... SELECT` with one row per staging row and no conflict clause. -/
def populateDims (d : Dims) (staging : List StagingRow) : Dims :=
  { product_type := populateKeyed d.product_type (staging.map (fun rb => rb.product_type))
    books_details := d.books_details ++ staging.map detailOf
    category_info := populateKeyed d.category_info (staging.map (fun rb => rb.category))
    rating_info := populateKeyed d.rating_info (staging.map (fun rb => rb.rating))
    availability_info := populateKeyed d.availability_info (staging.map availLabel) }

/-- SQL `=` over a nullable column: `NULL = x` is never true. -/
def sqlEqOpt [DecidableEq α] (a b : Option α) : Bool :=
  match a, b with
  | some x, some y => decide (x = y)
  | _, _ => false

/-- The surrogate ids (list positions) of the rows satisfying a predicate. -/
def idsWhere (l : List α) (p : α → Bool) : List ℕ :=
  (l.enum.filter (fun x => p x.2)).map (fun x => x.1)

/-- `LEFT JOIN books_details bd ON rb.title = bd.title AND rb.upc = bd.upc`
(src/main.py:425): ids of all matching detail rows. -/
def detailMatches (bd : List DetailRow) (rb : StagingRow) : List ℕ :=
  idsWhere bd (fun r => decide (rb.title = r.title) && sqlEqOpt rb.upc r.upc)

/-- `LEFT JOIN category_info ci ON rb.category = ci.category_name`
(src/main.py:426). -/
def categoryMatches (ci : List String) (rb : StagingRow) : List ℕ :=
  idsWhere ci (fun n => decide (rb.category = n))

/-- `LEFT JOIN rating_info ri ON rb.rating = ri.rating_value`
(src/main.py:427). -/
def ratingMatches (ri : List ℤ) (rb : StagingRow) : List ℕ :=
  idsWhere ri (fun v => decide (rb.rating = v))

/-- `LEFT JOIN availability_info ai ON (CASE ... END) = ai.availability_status`
(src/main.py:428). -/
def availabilityMatches (ai : List String) (rb : StagingRow) : List ℕ :=
  idsWhere ai (fun s => decide (availLabel rb = s))

/-- `LEFT JOIN product_type pt ON rb.product_type = pt.product_type_name`
(src/main.py:429). -/
def ptypeMatches (pt : List String) (rb : StagingRow) : List ℕ :=
  idsWhere pt (fun n => decide (rb.product_type = n))

/-- Left-outer-join semantics for one join step: no match keeps the row with a
null key, matches fan out one output row per matching dimension row. -/
def leftJoinIds (ids : List ℕ) : List (Option ℕ) :=
  match ids with
  | [] => [none]
  | _ => ids.map some

/-- One row of the fact table `books_fact` (src/main.py:350-365); every
foreign key is nullable. -/
structure FactRow where
  books_details_id : Option ℕ
  price : Option ℚ
  price_excl_tax : Option ℚ
  price_incl_tax : Option ℚ
  tax : Option ℚ
  available_quantity : ℤ
  category_id : Option ℕ
  rating_id : Option ℕ
  availability_id : Option ℕ
  product_type_id : Option ℕ
deriving DecidableEq

/-- The fact rows produced for one staging row by the five-way `LEFT JOIN` of
src/main.py:408-429, in join order. -/
def factRowsFor (d : Dims) (rb : StagingRow) : List FactRow :=
  (leftJoinIds (detailMatches d.books_details rb)).flatMap (fun bdId =>
  (leftJoinIds (categoryMatches d.category_info rb)).flatMap (fun cId =>
  (leftJoinIds (ratingMatches d.rating_info rb)).flatMap (fun rId =>
  (leftJoinIds (availabilityMatches d.availability_info rb)).flatMap (fun aId =>
  (leftJoinIds (ptypeMatches d.product_type rb)).map (fun pId =>
    { books_details_id := bdId
      price := rb.price
      price_excl_tax := rb.price_excl_tax
      price_incl_tax := rb.price_incl_tax
      tax := rb.tax
      available_quantity := rb.available_quantity
      category_id := cId
      rating_id := rId
      availability_id := aId
      product_type_id := pId : FactRow })))))

/-- The fact-population step (src/main.py:407-432): the `INSERT ... SELECT`
over the five-way left join, one batch of output rows per staging row. -/
def buildFacts (d : Dims) (staging : List StagingRow) : List FactRow :=
  staging.flatMap (factRowsFor d)

/-- The fact row for a staging row when every dimension matches at most once:
each foreign key is the first (only) matching id, `none` when unresolved. -/
def mkFact (d : Dims) (rb : StagingRow) : FactRow :=
  { books_details_id := (detailMatches d.books_details rb).head?
    price := rb.price
    price_excl_tax := rb.price_excl_tax
    price_incl_tax := rb.price_incl_tax
    tax := rb.tax
    available_quantity := rb.available_quantity
    category_id := (categoryMatches d.category_info rb).head?
    rating_id := (ratingMatches d.rating_info rb).head?
    availability_id := (availabilityMatches d.availability_info rb).head?
    product_type_id := (ptypeMatches d.product_type rb).head? }

/-! ### Concrete data used by witnesses and counterexamples -/

/-- The spec's tax-inconsistency example row: `price_incl_tax = 10.00`,
`tax = 1.00`, `price_excl_tax = 8.00`. -/
def taxDemo : CleanBook :=
  { title := some "T", price := none, rating := 0, availability := false, category := "A"
    book_url := none, book_thumbnail_url := none, product_description := none, upc := none
    product_type := "Books", price_excl_tax := some 8, price_incl_tax := some 10
    tax := some 1, available_quantity := 0, no_of_reviews := 0 }

/-- A raw record whose title is present but the empty string. -/
def emptyTitleRaw : RawBook :=
  { title := some "", price := none, rating := none, availability := none, category := none
    book_url := none, book_thumbnail_url := none, product_description := none, upc := none
    product_type := none, price_excl_tax := none, price_incl_tax := none, tax := none
    available_quantity := none, no_of_reviews := 0 }

/-- A raw record with no title at all. -/
def nullTitleRaw : RawBook :=
  { title := none, price := none, rating := none, availability := none, category := none
    book_url := none, book_thumbnail_url := none, product_description := none, upc := none
    product_type := none, price_excl_tax := none, price_incl_tax := none, tax := none
    available_quantity := none, no_of_reviews := 0 }

/-- The reconciled form of `emptyTitleRaw`. -/
def emptyTitleClean : CleanBook :=
  { title := some "", price := none, rating := 0, availability := false, category := "Others"
    book_url := none, book_thumbnail_url := none, product_description := none, upc := none
    product_type := "Books", price_excl_tax := none, price_incl_tax := none, tax := none
    available_quantity := 0, no_of_reviews := 0 }

/-- The spec's imputation example: a Fiction record with a null price. -/
def fictionNull : Book :=
  { title := some "A", price := none, rating := none, availability := none
    category := some "Fiction", book_url := none, book_thumbnail_url := none
    product_description := none, upc := none, product_type := none
    price_excl_tax := none, price_incl_tax := none, tax := none
    available_quantity := none, no_of_reviews := 0 }

/-- A Fiction record priced `10.00`. -/
def fictionTen : Book :=
  { title := some "B", price := some 10, rating := none, availability := none
    category := some "Fiction", book_url := none, book_thumbnail_url := none
    product_description := none, upc := none, product_type := none
    price_excl_tax := none, price_incl_tax := none, tax := none
    available_quantity := none, no_of_reviews := 0 }

/-- A Fiction record priced `20.00`. -/
def fictionTwenty : Book :=
  { title := some "C", price := some 20, rating := none, availability := none
    category := some "Fiction", book_url := none, book_thumbnail_url := none
    product_description := none, upc := none, product_type := none
    price_excl_tax := none, price_incl_tax := none, tax := none
    available_quantity := none, no_of_reviews := 0 }

/-- The spec's `[null, 10.00, 20.00]` Fiction category. -/
def fictionDemo : List Book := [fictionNull, fictionTen, fictionTwenty]

/-- A record with a null category and a null price at imputation time. -/
def nullCatBook : Book :=
  { title := some "D", price := none, rating := none, availability := none
    category := none, book_url := none, book_thumbnail_url := none
    product_description := none, upc := none, product_type := none
    price_excl_tax := none, price_incl_tax := none, tax := none
    available_quantity := none, no_of_reviews := 0 }

/-- A fresh warehouse: every dimension table empty. -/
def emptyDims : Dims :=
  { product_type := [], books_details := [], category_info := [], rating_info := []
    availability_info := [] }

/-- A plain staging row used by the warehouse witnesses. -/
def stagingRowA : StagingRow :=
  { title := "T", price := none, rating := 0, availability := true, category := "A"
    book_url := none, book_thumbnail_url := none, product_description := none
    upc := some "U", product_type := "Books", price_excl_tax := none
    price_incl_tax := none, tax := none, available_quantity := 0, no_of_reviews := 0 }

/-- A staging row whose `upc` is SQL NULL, so its own `books_details` row can
never satisfy the join condition `rb.upc = bd.upc`. -/
def upcNullRow : StagingRow :=
  { title := "T", price := none, rating := 0, availability := true, category := "A"
    book_url := none, book_thumbnail_url := none, product_description := none
    upc := none, product_type := "Books", price_excl_tax := none
    price_incl_tax := none, tax := none, available_quantity := 0, no_of_reviews := 0 }

/-- First of two staging rows sharing the natural key `(title, upc)`. -/
def dupRowA : StagingRow :=
  { title := "T", price := none, rating := 0, availability := true, category := "A"
    book_url := none, book_thumbnail_url := none, product_description := none
    upc := some "U", product_type := "Books", price_excl_tax := none
    price_incl_tax := none, tax := none, available_quantity := 0, no_of_reviews := 0 }

/-- Second of two staging rows sharing the natural key `(title, upc)` but
differing in category, so de-duplication does not collapse them. -/
def dupRowB : StagingRow :=
  { title := "T", price := none, rating := 0, availability := true, category := "B"
    book_url := none, book_thumbnail_url := none, product_description := none
    upc := some "U", product_type := "Books", price_excl_tax := none
    price_incl_tax := none, tax := none, available_quantity := 0, no_of_reviews := 0 }

/-! ### Helper lemmas -/

theorem isPrefixCh_iff (a b : List Char) : isPrefixCh a b = true ↔ ∃ v, b = a ++ v := by
  induction a generalizing b with
  | nil => simp [isPrefixCh]
  | cons x xs ih =>
      cases b with
      | nil => simp [isPrefixCh]
      | cons y ys =>
          simp only [isPrefixCh, Bool.and_eq_true, decide_eq_true_eq, ih, List.cons_append,
            List.cons.injEq]
          constructor
          · rintro ⟨rfl, v, rfl⟩; exact ⟨v, rfl, rfl⟩
          · rintro ⟨v, rfl, rfl⟩; exact ⟨rfl, v, rfl⟩

theorem hasSubstr_iff (n h : List Char) : hasSubstr n h = true ↔ ∃ u v, h = u ++ n ++ v := by
  induction h with
  | nil =>
      simp only [hasSubstr, List.isEmpty_iff]
      constructor
      · rintro rfl; exact ⟨[], [], rfl⟩
      · rintro ⟨u, v, huv⟩
        rcases List.append_eq_nil.1 (List.append_eq_nil.1 huv.symm).1 with ⟨-, hn⟩
        exact hn
  | cons c t ih =>
      simp only [hasSubstr, Bool.or_eq_true, isPrefixCh_iff, ih]
      constructor
      · rintro (⟨v, hv⟩ | ⟨u, v, huv⟩)
        · exact ⟨[], v, by simp [hv]⟩
        · exact ⟨c :: u, v, by simp [huv]⟩
      · rintro ⟨u, v, huv⟩
        cases u with
        | nil => exact Or.inl ⟨v, by simpa using huv⟩
        | cons x xs =>
            simp only [List.cons_append, List.cons.injEq] at huv
            exact Or.inr ⟨xs, v, huv.2⟩

theorem taxFix_price_incl_tax (b : CleanBook) : (taxFix b).price_incl_tax = b.price_incl_tax := by
  unfold taxFix; split <;> rfl

theorem taxFix_tax (b : CleanBook) : (taxFix b).tax = b.tax := by
  unfold taxFix; split <;> rfl

theorem taxFix_title (b : CleanBook) : (taxFix b).title = b.title := by
  unfold taxFix; split <;> rfl

theorem taxFix_rating (b : CleanBook) : (taxFix b).rating = b.rating := by
  unfold taxFix; split <;> rfl

theorem priceFix_title (b : CleanBook) : (priceFix b).title = b.title := by
  unfold priceFix; split <;> rfl

theorem priceFix_rating (b : CleanBook) : (priceFix b).rating = b.rating := by
  unfold priceFix; split <;> rfl

theorem priceFix_price_excl_tax (b : CleanBook) :
    (priceFix b).price_excl_tax = b.price_excl_tax := by
  unfold priceFix; split <;> rfl

theorem priceFix_price_incl_tax (b : CleanBook) :
    (priceFix b).price_incl_tax = b.price_incl_tax := by
  unfold priceFix; split <;> rfl

theorem priceFix_tax (b : CleanBook) : (priceFix b).tax = b.tax := by
  unfold priceFix; split <;> rfl

/-- The repaired record always satisfies the tax identity within tolerance
when all three fields are present. -/
theorem taxFix_sound (b : CleanBook) :
    ∀ pi t pe, (taxFix b).price_incl_tax = some pi → (taxFix b).tax = some t →
      (taxFix b).price_excl_tax = some pe → |pi - t - pe| ≤ tolerance := by
  intro pi t pe hpi ht hpe
  rw [taxFix_price_incl_tax] at hpi
  rw [taxFix_tax] at ht
  by_cases hc : taxInconsistent b = true
  · have hpe' : optSub b.price_incl_tax b.tax = some pe := by
      unfold taxFix at hpe
      rw [if_pos hc] at hpe
      exact hpe
    rw [hpi, ht] at hpe'
    have hval : pi - t = pe := Option.some.inj hpe'
    rw [← hval]
    simp only [sub_self, abs_zero, tolerance]
    norm_num
  · have hb : b.price_excl_tax = some pe := by
      unfold taxFix at hpe
      rw [if_neg hc] at hpe
      exact hpe
    have hd : price_diff b = some (pi - t - pe) := by
      unfold price_diff
      rw [hpi, ht, hb]
      rfl
    have hnlt : ¬ tolerance < |pi - t - pe| := by
      intro hlt
      apply hc
      unfold taxInconsistent
      rw [hd]
      simpa using hlt
    exact le_of_not_lt hnlt

theorem mem_imputeField {get set} {l : List Book} {b' : Book} (h : b' ∈ imputeField get set l) :
    ∃ b ∈ l, ∃ v, b' = set b v := by
  unfold imputeField at h
  rcases List.mem_map.1 h with ⟨b, hb, hbe⟩
  refine ⟨b, hb, ?_⟩
  unfold imputeStep at hbe
  cases hcat : b.category with
  | none => rw [hcat] at hbe; exact ⟨none, hbe.symm⟩
  | some c =>
      rw [hcat] at hbe
      cases hget : get b with
      | none => rw [hget] at hbe; exact ⟨categoryMean l get c, hbe.symm⟩
      | some v => rw [hget] at hbe; exact ⟨some v, hbe.symm⟩

theorem mem_imputeAll {l : List Book} {b' : Book} (h : b' ∈ imputeAll l) :
    ∃ b ∈ l, b'.title = b.title ∧ b'.rating = b.rating := by
  unfold imputeAll imputeTaxF imputeIncl imputeExcl imputePrice at h
  rcases mem_imputeField h with ⟨b3, hb3, v4, rfl⟩
  rcases mem_imputeField hb3 with ⟨b2, hb2, v3, rfl⟩
  rcases mem_imputeField hb2 with ⟨b1, hb1, v2, rfl⟩
  rcases mem_imputeField hb1 with ⟨b0, hb0, v1, rfl⟩
  exact ⟨b0, hb0, rfl, rfl⟩

/-- Every reconciled record is the image, under defaulting and the two repair
steps, of a record surviving the title filter of the imputation input. -/
theorem mem_transform {books : List RawBook} {b : CleanBook} (h : b ∈ transform_data books) :
    ∃ i ∈ imputeAll (((dropDup books).map convertPrices).filter (fun x => x.title ≠ none)),
      b = priceFix (taxFix (applyDefaults i)) := by
  unfold transform_data priceRepair taxRepair at h
  rcases List.mem_map.1 h with ⟨c, hc, rfl⟩
  rcases List.mem_map.1 hc with ⟨d, hd, rfl⟩
  rcases List.mem_map.1 hd with ⟨i, hi, rfl⟩
  exact ⟨i, hi, rfl⟩

theorem imputeStep_field {α : Type} {l : List Book} {get : Book → Option ℚ}
    {set : Book → Option ℚ → Book} (get2 : Book → α)
    (hind : ∀ x v, get2 (set x v) = get2 x) (b : Book) :
    get2 (imputeStep l get set b) = get2 b := by
  unfold imputeStep
  cases hcat : b.category with
  | none => exact hind b none
  | some c =>
      cases hget : get b with
      | none => exact hind b _
      | some v => exact hind b _

theorem imputeStep_cat_none {l : List Book} {get : Book → Option ℚ}
    {set : Book → Option ℚ → Book} {b : Book} (hc : b.category = none) :
    imputeStep l get set b = set b none := by
  unfold imputeStep
  rw [hc]

theorem imputeStep_present {l : List Book} {get : Book → Option ℚ}
    {set : Book → Option ℚ → Book} {b : Book} {c : String} {v : ℚ}
    (hc : b.category = some c) (hg : get b = some v) :
    imputeStep l get set b = set b (some v) := by
  unfold imputeStep
  rw [hc, hg]

theorem imputeStep_missing {l : List Book} {get : Book → Option ℚ}
    {set : Book → Option ℚ → Book} {b : Book} {c : String}
    (hc : b.category = some c) (hg : get b = none) :
    imputeStep l get set b = set b (categoryMean l get c) := by
  unfold imputeStep
  rw [hc, hg]

/-- Group means are invariant under a whole-collection map that preserves the
grouping key and the measured field. -/
theorem categoryMean_map (l : List Book) (f : Book → Book) (get : Book → Option ℚ) (c : String)
    (hcat : ∀ x, (f x).category = x.category) (hget : ∀ x, get (f x) = get x) :
    categoryMean (l.map f) get c = categoryMean l get c := by
  unfold categoryMean
  have h1 : (l.map f).filter (fun x => x.category = some c)
      = (l.filter (fun x => x.category = some c)).map f := by
    rw [List.filter_map]
    congr 1
    apply List.filter_congr
    intro x _
    simp [hcat x]
  have h2 : ∀ m : List Book, (m.map f).filterMap get = m.filterMap get := by
    intro m
    induction m with
    | nil => rfl
    | cons a t ih => simp [List.filterMap_cons, hget a, ih]
  rw [h1, h2]

theorem imputeAll_eq_map (l : List Book) : imputeAll l = l.map (imputeImage l) := by
  unfold imputeAll imputeImage imputeTaxF imputeIncl imputeExcl imputePrice imputeField
  simp only [List.map_map]
  rfl

theorem imputeField_length (get set) (l : List Book) :
    (imputeField get set l).length = l.length := by
  unfold imputeField; exact List.length_map _ _

theorem imputeAll_length (l : List Book) : (imputeAll l).length = l.length := by
  unfold imputeAll imputeTaxF imputeIncl imputeExcl imputePrice
  simp only [imputeField_length]

theorem transform_data_length (books : List RawBook) :
    (transform_data books).length =
      ((dropDup books).filter (fun r => r.title ≠ none)).length := by
  unfold transform_data priceRepair taxRepair
  simp only [List.length_map, imputeAll_length]
  rw [List.filter_map]
  simp only [List.length_map]
  rfl

theorem mapRatingVal_range (r : Option String) :
    mapRatingVal r = 0 ∨ mapRatingVal r = 1 ∨ mapRatingVal r = 2 ∨ mapRatingVal r = 3 ∨
      mapRatingVal r = 4 ∨ mapRatingVal r = 5 := by
  cases r with
  | none => exact Or.inl rfl
  | some s =>
      have h : mapRatingVal (some s) = (rating_map s).getD 0 := rfl
      rw [h]
      unfold rating_map
      split_ifs <;> simp

theorem populateKeyed_nodup [DecidableEq α] (t ks : List α) (h : t.Nodup) :
    (populateKeyed t ks).Nodup := by
  unfold populateKeyed
  refine List.Nodup.append h ((List.nodup_dedup ks).filter _) ?_
  intro a ha hb
  have hm := List.mem_filter.1 hb
  simp only [decide_eq_true_eq] at hm
  exact hm.2 ha

theorem populateKeyed_idem [DecidableEq α] (t ks : List α) :
    populateKeyed (populateKeyed t ks) ks = populateKeyed t ks := by
  unfold populateKeyed
  have h : ks.dedup.filter
      (fun k => decide (k ∉ t ++ ks.dedup.filter (fun k => decide (k ∉ t)))) = [] := by
    rw [List.filter_eq_nil_iff]
    intro a ha
    simp only [List.mem_append, decide_eq_true_eq, not_not]
    by_cases hat : a ∈ t
    · exact Or.inl hat
    · exact Or.inr (List.mem_filter.2 ⟨ha, by simpa using hat⟩)
  rw [h, List.append_nil]

theorem enumFrom_filter_length {β : Type u} (p : β → Bool) (l : List β) :
    ∀ n, ((List.enumFrom n l).filter (fun x => p x.2)).length = (l.filter p).length := by
  induction l with
  | nil => intro n; rfl
  | cons a t ih =>
      intro n
      by_cases hpa : p a = true <;>
        simp [List.enumFrom, List.filter_cons, hpa, ih (n + 1)]

theorem idsWhere_length {β : Type u} (l : List β) (p : β → Bool) :
    (idsWhere l p).length = (l.filter p).length := by
  unfold idsWhere
  rw [List.length_map]
  exact enumFrom_filter_length p l 0

theorem idsWhere_len_le_one [DecidableEq α] (l : List α) (hl : l.Nodup) (a : α) :
    (idsWhere l (fun x => decide (a = x))).length ≤ 1 := by
  rw [idsWhere_length]
  have hsub : (l.filter (fun x => decide (a = x))).Nodup := hl.filter _
  have hall : ∀ x ∈ l.filter (fun x => decide (a = x)), x = a := by
    intro x hx
    have hpx := List.of_mem_filter hx
    simp only [decide_eq_true_eq] at hpx
    exact hpx.symm
  revert hsub hall
  generalize l.filter (fun x => decide (a = x)) = m
  intro hsub hall
  cases m with
  | nil => simp
  | cons x t =>
      cases t with
      | nil => simp
      | cons y u =>
          exfalso
          apply (List.nodup_cons.1 hsub).1
          rw [hall x (by simp), ← hall y (by simp)]
          exact List.mem_cons_self y u

theorem len_le_one_cases {β : Type u} (l : List β) (h : l.length ≤ 1) :
    l = [] ∨ ∃ a, l = [a] := by
  cases l with
  | nil => exact Or.inl rfl
  | cons a t =>
      cases t with
      | nil => exact Or.inr ⟨a, rfl⟩
      | cons b u =>
          simp only [List.length_cons] at h
          omega

theorem factRowsFor_singleton (d : Dims) (rb : StagingRow)
    (hbd : (detailMatches d.books_details rb).length ≤ 1)
    (hc : (categoryMatches d.category_info rb).length ≤ 1)
    (hr : (ratingMatches d.rating_info rb).length ≤ 1)
    (ha : (availabilityMatches d.availability_info rb).length ≤ 1)
    (hp : (ptypeMatches d.product_type rb).length ≤ 1) :
    factRowsFor d rb = [mkFact d rb] := by
  unfold factRowsFor mkFact
  rcases len_le_one_cases _ hbd with h1 | ⟨a1, h1⟩ <;>
  rcases len_le_one_cases _ hc with h2 | ⟨a2, h2⟩ <;>
  rcases len_le_one_cases _ hr with h3 | ⟨a3, h3⟩ <;>
  rcases len_le_one_cases _ ha with h4 | ⟨a4, h4⟩ <;>
  rcases len_le_one_cases _ hp with h5 | ⟨a5, h5⟩ <;>
    rw [h1, h2, h3, h4, h5] <;> rfl

theorem flatMap_singleton_eq_map {β : Type u} {γ : Type v} (l : List β) (f : β → List γ) (g : β → γ)
    (h : ∀ x ∈ l, f x = [g x]) : l.flatMap f = l.map g := by
  induction l with
  | nil => rfl
  | cons a t ih =>
      rw [List.flatMap_cons, List.map_cons, h a (List.mem_cons_self a t),
        ih (fun x hx => h x (List.mem_cons_of_mem a hx))]
      rfl

/-! ### Claim theorems -/

/-- **C5** (confirmed): after mojibake/whitespace stripping, a price string
prefixed with the reference symbol `'£'` parses directly as a float; one
prefixed with the alternate symbol `'$'` yields `round(value * 0.75, 2)`
(so `"$10.00"` normalizes to `7.5`); any other prefix yields null. -/
theorem price_normalization (rest : List Char) (h1 : '£' ∉ rest) (h2 : '$' ∉ rest) :
    convertCore ('£' :: rest) = pyFloat? rest ∧
    convertCore ('$' :: rest) = (pyFloat? rest).map (fun v => pyRound2 (v * (3/4))) ∧
    (∀ c t, c ≠ '£' → c ≠ '$' → convertCore (c :: t) = none) ∧
    convert_to_pounds (some "$10.00") = some (15/2 : ℚ) := by
  have hf1 : ('£' :: rest).filter (fun c => c ≠ '£') = rest := by
    rw [List.filter_cons_of_neg (by simp)]
    exact List.filter_eq_self.mpr
      (fun a ha => by simp only [ne_eq, decide_eq_true_eq]; exact fun e => h1 (e ▸ ha))
  have hf2 : ('$' :: rest).filter (fun c => c ≠ '$') = rest := by
    rw [List.filter_cons_of_neg (by simp)]
    exact List.filter_eq_self.mpr
      (fun a ha => by simp only [ne_eq, decide_eq_true_eq]; exact fun e => h2 (e ▸ ha))
  refine ⟨?_, ?_, ?_, ?_⟩
  · show pyFloat? (('£' :: rest).filter (fun c => c ≠ '£')) = pyFloat? rest
    rw [hf1]
  · show (pyFloat? (('$' :: rest).filter (fun c => c ≠ '$'))).map (fun v => pyRound2 (v * (3/4)))
        = (pyFloat? rest).map (fun v => pyRound2 (v * (3/4)))
    rw [hf2]
  · intro c t hc hd
    unfold convertCore
    split
    next xs heq => injection heq with he _; exact absurd he hc
    next xs heq => injection heq with he _; exact absurd he hd
    next => rfl
  · have h0 : convert_to_pounds (some "$10.00")
        = (pyFloat? "10.00".data).map (fun v => pyRound2 (v * (3/4))) := rfl
    have h10 : pyFloat? "10.00".data
        = some ((digitsVal ['1','0'] : ℚ)
            + (digitsVal ['0','0'] : ℚ) / 10 ^ (['0','0'] : List Char).length) := rfl
    have hd1 : digitsVal ['1','0'] = 10 := rfl
    have hd2 : digitsVal ['0','0'] = 0 := rfl
    rw [h0, h10, hd1, hd2]
    simp only [Option.map_some', Option.some.injEq, List.length_cons, List.length_nil]
    norm_num [pyRound2, roundHalfEven]

theorem price_normalization_witness :
    ('£' ∉ "10.00".data) ∧ convertCore ('£' :: "10.00".data) = pyFloat? "10.00".data ∧
    convert_to_pounds (some "$10.00") = some (15/2 : ℚ) :=
  ⟨by decide, (price_normalization "10.00".data (by decide) (by decide)).1,
   (price_normalization "10.00".data (by decide) (by decide)).2.2.2⟩

/-- **C7** (confirmed): `"One"`..`"Five"` map to `1`..`5`, anything else
(including an absent label) maps to `0`, and every reconciled record's rating
lies in `{0,1,2,3,4,5}`. -/
theorem rating_mapping :
    (mapRatingVal (some "One") = 1 ∧ mapRatingVal (some "Two") = 2 ∧
     mapRatingVal (some "Three") = 3 ∧ mapRatingVal (some "Four") = 4 ∧
     mapRatingVal (some "Five") = 5) ∧
    (∀ s : String, rating_map s = none → mapRatingVal (some s) = 0) ∧
    mapRatingVal none = 0 ∧
    (∀ r : Option String, mapRatingVal r = 0 ∨ mapRatingVal r = 1 ∨ mapRatingVal r = 2 ∨
      mapRatingVal r = 3 ∨ mapRatingVal r = 4 ∨ mapRatingVal r = 5) ∧
    (∀ books : List RawBook, ∀ b ∈ transform_data books,
      b.rating = 0 ∨ b.rating = 1 ∨ b.rating = 2 ∨ b.rating = 3 ∨ b.rating = 4 ∨
        b.rating = 5) := by
  refine ⟨⟨by decide, by decide, by decide, by decide, by decide⟩, ?_, rfl,
    mapRatingVal_range, ?_⟩
  · intro s hs
    have h : mapRatingVal (some s) = (rating_map s).getD 0 := rfl
    rw [h, hs]
    rfl
  · intro books b hb
    rcases mem_transform hb with ⟨i, hi, rfl⟩
    rw [priceFix_rating, taxFix_rating]
    exact mapRatingVal_range i.rating

theorem rating_mapping_witness :
    rating_map "Six" = none ∧ mapRatingVal (some "Six") = 0 :=
  ⟨by decide, rating_mapping.2.1 "Six" (by decide)⟩

/-- **C8** (confirmed): the normalized availability boolean is true exactly
when the raw status text is present and contains the substring `"In stock"`;
an absent text gives false. -/
theorem availability_normalization (x : Option String) :
    availabilityOf x = true ↔ ∃ s u v, x = some s ∧ s.data = u ++ "In stock".data ++ v := by
  cases x with
  | none => simp [availabilityOf]
  | some s =>
      simp only [availabilityOf, Bool.and_eq_true, hasSubstr_iff, Option.some.injEq]
      constructor
      · rintro ⟨hne, u, v, huv⟩
        exact ⟨s, u, v, rfl, huv⟩
      · rintro ⟨s', u, v, hss, huv⟩
        obtain rfl := hss
        refine ⟨?_, u, v, huv⟩
        have hne : s.data ≠ [] := by
          intro h0
          rw [huv] at h0
          have hl := congrArg List.length h0
          rw [List.length_append, List.length_append] at hl
          have h8 : ("In stock".data).length = 8 := by decide
          rw [h8] at hl
          simp at hl
        simpa [List.isEmpty_iff] using hne

theorem availability_normalization_witness :
    availabilityOf (some "In stock (22 available)") = true ∧ availabilityOf none = false :=
  ⟨(availability_normalization _).mpr
      ⟨"In stock (22 available)", [], " (22 available)".data, rfl, by decide⟩,
   by decide⟩

/-- **C9** (confirmed): field normalization is total — malformed input
degrades to the documented default instead of propagating an error: review
count defaults to `0` on parse failure or absence, price parsing yields null
on float-parse failure or an unknown currency prefix, quantity extraction
yields null when no digit is present. -/
theorem normalizer_totality :
    no_of_reviews_of none = 0 ∧
    (∀ s : String, pyInt? s.data = none → no_of_reviews_of (some s) = 0) ∧
    (∀ s : String, ∀ n : ℤ, pyInt? s.data = some n → no_of_reviews_of (some s) = n) ∧
    (∀ s : Option String, convert_to_pounds s = none ∨ ∃ q, convert_to_pounds s = some q) ∧
    (∀ rest : List Char, pyFloat? (('£' :: rest).filter (fun c => c ≠ '£')) = none →
      convertCore ('£' :: rest) = none) ∧
    (∀ rest : List Char, pyFloat? (('$' :: rest).filter (fun c => c ≠ '$')) = none →
      convertCore ('$' :: rest) = none) ∧
    (∀ c : Char, ∀ t : List Char, c ≠ '£' → c ≠ '$' → convertCore (c :: t) = none) ∧
    available_quantity_of none = none ∧
    (∀ s : String, firstIntRun s.data = none → available_quantity_of (some s) = none) := by
  refine ⟨rfl, ?_, ?_, ?_, ?_, ?_, ?_, rfl, ?_⟩
  · intro s hs
    have h : no_of_reviews_of (some s)
        = (match pyInt? s.data with | some n => n | none => 0) := rfl
    rw [h, hs]
  · intro s n hs
    have h : no_of_reviews_of (some s)
        = (match pyInt? s.data with | some n => n | none => 0) := rfl
    rw [h, hs]
  · intro s
    cases h : convert_to_pounds s with
    | none => exact Or.inl rfl
    | some q => exact Or.inr ⟨q, rfl⟩
  · intro rest h
    exact h
  · intro rest h
    show (pyFloat? (('$' :: rest).filter (fun c => c ≠ '$'))).map
        (fun v => pyRound2 (v * (3/4))) = none
    rw [h]
    rfl
  · intro c t hc hd
    unfold convertCore
    split
    next xs heq => injection heq with he _; exact absurd he hc
    next xs heq => injection heq with he _; exact absurd he hd
    next => rfl
  · intro s hs
    have h : available_quantity_of (some s)
        = (firstIntRun s.data).map (fun n => (n : ℤ)) := rfl
    rw [h, hs]
    rfl

theorem normalizer_totality_witness :
    pyInt? "abc".data = none ∧ no_of_reviews_of (some "abc") = 0 ∧
    firstIntRun "no digits here".data = none ∧
    available_quantity_of (some "no digits here") = none :=
  ⟨by decide, normalizer_totality.2.1 "abc" (by decide), by decide,
   normalizer_totality.2.2.2.2.2.2.2.2 "no digits here" (by decide)⟩

/-- **C1** (confirmed): the tax-consistency repair leaves `price_incl_tax` and
`tax` untouched, rewrites `price_excl_tax := price_incl_tax - tax` exactly for
the records whose difference exceeds the `0.01` tolerance, leaves in-tolerance
records unchanged, and afterwards every reconciled record with all three
fields present satisfies `|price_incl_tax - tax - price_excl_tax| ≤ 0.01`. -/
theorem tax_consistency_repair :
    (∀ b : CleanBook, (taxFix b).price_incl_tax = b.price_incl_tax ∧ (taxFix b).tax = b.tax) ∧
    (∀ b : CleanBook, ∀ d : ℚ, price_diff b = some d →
      (taxInconsistent b = true ↔ tolerance < |d|)) ∧
    (∀ b : CleanBook, taxInconsistent b = false → taxFix b = b) ∧
    (∀ b : CleanBook, taxInconsistent b = true →
      (taxFix b).price_excl_tax = optSub b.price_incl_tax b.tax) ∧
    (∀ b : CleanBook, ∀ pi t pe, (taxFix b).price_incl_tax = some pi →
      (taxFix b).tax = some t → (taxFix b).price_excl_tax = some pe →
      |pi - t - pe| ≤ tolerance) ∧
    (∀ books : List RawBook, ∀ b ∈ transform_data books, ∀ pi t pe,
      b.price_incl_tax = some pi → b.tax = some t → b.price_excl_tax = some pe →
      |pi - t - pe| ≤ tolerance) := by
  refine ⟨fun b => ⟨taxFix_price_incl_tax b, taxFix_tax b⟩, ?_, ?_, ?_, taxFix_sound, ?_⟩
  · intro b d hd
    unfold taxInconsistent
    rw [hd]
    simp
  · intro b hc
    unfold taxFix
    rw [hc]
    rfl
  · intro b hc
    unfold taxFix
    rw [hc]
    rfl
  · intro books b hb pi t pe hpi ht hpe
    rcases mem_transform hb with ⟨i, hi, rfl⟩
    rw [priceFix_price_incl_tax] at hpi
    rw [priceFix_tax] at ht
    rw [priceFix_price_excl_tax] at hpe
    exact taxFix_sound _ pi t pe hpi ht hpe

theorem tax_consistency_repair_witness :
    taxInconsistent taxDemo = true ∧ (taxFix taxDemo).price_excl_tax = some 9 ∧
    (taxFix taxDemo).price_incl_tax = some 10 ∧ (taxFix taxDemo).tax = some 1 := by
  have hd : price_diff taxDemo = some (10 - 1 - 8 : ℚ) := rfl
  have hc : taxInconsistent taxDemo = true :=
    (tax_consistency_repair.2.1 taxDemo (10 - 1 - 8) hd).mpr (by norm_num [tolerance])
  refine ⟨hc, ?_, ?_, ?_⟩
  · rw [tax_consistency_repair.2.2.2.1 taxDemo hc]
    have : optSub (some (10 : ℚ)) (some 1) = some (10 - 1) := rfl
    rw [show taxDemo.price_incl_tax = some (10 : ℚ) from rfl,
      show taxDemo.tax = some (1 : ℚ) from rfl, this]
    norm_num
  · exact ((tax_consistency_repair.1 taxDemo).1).trans rfl
  · exact ((tax_consistency_repair.1 taxDemo).2).trans rfl

/-- **C6** counterexample: the title filter is `df.dropna(subset=["title"])`,
which drops only null titles — a record whose title is the empty string
survives reconciliation, contradicting the claim that empty titles are
discarded. -/
theorem title_drop_cex :
    (transform_data [emptyTitleRaw]).map (fun b => b.title) = [some ""] := by decide

/-- **C6** (amended): every record with a *null* title is discarded during
reconciliation (empty-string titles are retained), so every reconciled record
has a non-null title, and the surviving records are exactly the de-duplicated
records with non-null titles. -/
theorem title_drop (books : List RawBook) :
    (∀ b ∈ transform_data books, b.title ≠ none) ∧
    (transform_data books).length
      = ((dropDup books).filter (fun r => r.title ≠ none)).length := by
  refine ⟨?_, transform_data_length books⟩
  intro b hb
  rcases mem_transform hb with ⟨i, hi, rfl⟩
  rcases mem_imputeAll hi with ⟨j, hj, htitle, -⟩
  rw [priceFix_title, taxFix_title]
  have hai : (applyDefaults i).title = i.title := rfl
  rw [hai, htitle]
  have := (List.mem_filter.1 hj).2
  simpa using this

theorem title_drop_witness :
    (emptyTitleClean.title ≠ none) ∧
    (transform_data [emptyTitleRaw, nullTitleRaw]).length = 1 :=
  ⟨(title_drop [emptyTitleRaw]).1 emptyTitleClean (by decide),
   (title_drop [emptyTitleRaw, nullTitleRaw]).2.trans (by decide)⟩

/-- **C2** (confirmed): group-wise imputation — for each of the four price
fields, a record with a category value and a null field value receives the
arithmetic mean (sum over count) of the non-null values of that field among
the records sharing its category; a present value is kept; a group with no
non-null value leaves the field null. -/
theorem groupwise_imputation (l : List Book) (b : Book) (c : String)
    (hc : b.category = some c) :
    imputeAll l = l.map (imputeImage l) ∧
    (b.price = none → (imputeImage l b).price = categoryMean l (fun x => x.price) c) ∧
    (∀ v, b.price = some v → (imputeImage l b).price = some v) ∧
    (b.price_excl_tax = none →
      (imputeImage l b).price_excl_tax = categoryMean l (fun x => x.price_excl_tax) c) ∧
    (∀ v, b.price_excl_tax = some v → (imputeImage l b).price_excl_tax = some v) ∧
    (b.price_incl_tax = none →
      (imputeImage l b).price_incl_tax = categoryMean l (fun x => x.price_incl_tax) c) ∧
    (∀ v, b.price_incl_tax = some v → (imputeImage l b).price_incl_tax = some v) ∧
    (b.tax = none → (imputeImage l b).tax = categoryMean l (fun x => x.tax) c) ∧
    (∀ v, b.tax = some v → (imputeImage l b).tax = some v) ∧
    (∀ get : Book → Option ℚ,
      (l.filter (fun x => x.category = some c)).filterMap get = [] →
        categoryMean l get c = none) ∧
    (∀ get : Book → Option ℚ, ∀ vs : List ℚ,
      (l.filter (fun x => x.category = some c)).filterMap get = vs → vs ≠ [] →
        categoryMean l get c = some (vs.sum / vs.length)) := by
  have pE : ∀ X : Book, (imputeStep (imputePrice l) (fun x => x.price_excl_tax)
      (fun x v => { x with price_excl_tax := v }) X).price = X.price :=
    fun X => imputeStep_field (fun y => y.price) (by intro x v; rfl) X
  have pI : ∀ X : Book, (imputeStep (imputeExcl (imputePrice l)) (fun x => x.price_incl_tax)
      (fun x v => { x with price_incl_tax := v }) X).price = X.price :=
    fun X => imputeStep_field (fun y => y.price) (by intro x v; rfl) X
  have pT : ∀ X : Book, (imputeStep (imputeIncl (imputeExcl (imputePrice l))) (fun x => x.tax)
      (fun x v => { x with tax := v }) X).price = X.price :=
    fun X => imputeStep_field (fun y => y.price) (by intro x v; rfl) X
  have eP : ∀ X : Book, (imputeStep l (fun x => x.price)
      (fun x v => { x with price := v }) X).price_excl_tax = X.price_excl_tax :=
    fun X => imputeStep_field (fun y => y.price_excl_tax) (by intro x v; rfl) X
  have eI : ∀ X : Book, (imputeStep (imputeExcl (imputePrice l)) (fun x => x.price_incl_tax)
      (fun x v => { x with price_incl_tax := v }) X).price_excl_tax = X.price_excl_tax :=
    fun X => imputeStep_field (fun y => y.price_excl_tax) (by intro x v; rfl) X
  have eT : ∀ X : Book, (imputeStep (imputeIncl (imputeExcl (imputePrice l))) (fun x => x.tax)
      (fun x v => { x with tax := v }) X).price_excl_tax = X.price_excl_tax :=
    fun X => imputeStep_field (fun y => y.price_excl_tax) (by intro x v; rfl) X
  have iP : ∀ X : Book, (imputeStep l (fun x => x.price)
      (fun x v => { x with price := v }) X).price_incl_tax = X.price_incl_tax :=
    fun X => imputeStep_field (fun y => y.price_incl_tax) (by intro x v; rfl) X
  have iE : ∀ X : Book, (imputeStep (imputePrice l) (fun x => x.price_excl_tax)
      (fun x v => { x with price_excl_tax := v }) X).price_incl_tax = X.price_incl_tax :=
    fun X => imputeStep_field (fun y => y.price_incl_tax) (by intro x v; rfl) X
  have iT : ∀ X : Book, (imputeStep (imputeIncl (imputeExcl (imputePrice l))) (fun x => x.tax)
      (fun x v => { x with tax := v }) X).price_incl_tax = X.price_incl_tax :=
    fun X => imputeStep_field (fun y => y.price_incl_tax) (by intro x v; rfl) X
  have tP : ∀ X : Book, (imputeStep l (fun x => x.price)
      (fun x v => { x with price := v }) X).tax = X.tax :=
    fun X => imputeStep_field (fun y => y.tax) (by intro x v; rfl) X
  have tE : ∀ X : Book, (imputeStep (imputePrice l) (fun x => x.price_excl_tax)
      (fun x v => { x with price_excl_tax := v }) X).tax = X.tax :=
    fun X => imputeStep_field (fun y => y.tax) (by intro x v; rfl) X
  have tI : ∀ X : Book, (imputeStep (imputeExcl (imputePrice l)) (fun x => x.price_incl_tax)
      (fun x v => { x with price_incl_tax := v }) X).tax = X.tax :=
    fun X => imputeStep_field (fun y => y.tax) (by intro x v; rfl) X
  have cP : ∀ X : Book, (imputeStep l (fun x => x.price)
      (fun x v => { x with price := v }) X).category = X.category :=
    fun X => imputeStep_field (fun y => y.category) (by intro x v; rfl) X
  have cE : ∀ X : Book, (imputeStep (imputePrice l) (fun x => x.price_excl_tax)
      (fun x v => { x with price_excl_tax := v }) X).category = X.category :=
    fun X => imputeStep_field (fun y => y.category) (by intro x v; rfl) X
  have cI : ∀ X : Book, (imputeStep (imputeExcl (imputePrice l)) (fun x => x.price_incl_tax)
      (fun x v => { x with price_incl_tax := v }) X).category = X.category :=
    fun X => imputeStep_field (fun y => y.category) (by intro x v; rfl) X
  have hc1 : (imputeStep l (fun x => x.price) (fun x v => { x with price := v }) b).category
      = some c := (cP b).trans hc
  have hc2 : (imputeStep (imputePrice l) (fun x => x.price_excl_tax)
      (fun x v => { x with price_excl_tax := v })
      (imputeStep l (fun x => x.price) (fun x v => { x with price := v }) b)).category
      = some c := (cE _).trans hc1
  have hc3 : (imputeStep (imputeExcl (imputePrice l)) (fun x => x.price_incl_tax)
      (fun x v => { x with price_incl_tax := v })
      (imputeStep (imputePrice l) (fun x => x.price_excl_tax)
        (fun x v => { x with price_excl_tax := v })
        (imputeStep l (fun x => x.price) (fun x v => { x with price := v }) b))).category
      = some c := (cI _).trans hc2
  have hmE : categoryMean (imputePrice l) (fun x => x.price_excl_tax) c
      = categoryMean l (fun x => x.price_excl_tax) c := by
    rw [show imputePrice l = l.map (imputeStep l (fun x => x.price)
        (fun x v => { x with price := v })) from rfl]
    exact categoryMean_map l _ _ c
      (fun x => imputeStep_field (fun y => y.category) (by intro x v; rfl) x)
      (fun x => imputeStep_field (fun y => y.price_excl_tax) (by intro x v; rfl) x)
  have hmI : categoryMean (imputeExcl (imputePrice l)) (fun x => x.price_incl_tax) c
      = categoryMean l (fun x => x.price_incl_tax) c := by
    rw [show imputeExcl (imputePrice l) = (imputePrice l).map
        (imputeStep (imputePrice l) (fun x => x.price_excl_tax)
          (fun x v => { x with price_excl_tax := v })) from rfl]
    rw [categoryMean_map (imputePrice l) _ _ c
      (fun x => imputeStep_field (fun y => y.category) (by intro x v; rfl) x)
      (fun x => imputeStep_field (fun y => y.price_incl_tax) (by intro x v; rfl) x)]
    rw [show imputePrice l = l.map (imputeStep l (fun x => x.price)
        (fun x v => { x with price := v })) from rfl]
    exact categoryMean_map l _ _ c
      (fun x => imputeStep_field (fun y => y.category) (by intro x v; rfl) x)
      (fun x => imputeStep_field (fun y => y.price_incl_tax) (by intro x v; rfl) x)
  have hmT : categoryMean (imputeIncl (imputeExcl (imputePrice l))) (fun x => x.tax) c
      = categoryMean l (fun x => x.tax) c := by
    rw [show imputeIncl (imputeExcl (imputePrice l)) = (imputeExcl (imputePrice l)).map
        (imputeStep (imputeExcl (imputePrice l)) (fun x => x.price_incl_tax)
          (fun x v => { x with price_incl_tax := v })) from rfl]
    rw [categoryMean_map (imputeExcl (imputePrice l)) _ _ c
      (fun x => imputeStep_field (fun y => y.category) (by intro x v; rfl) x)
      (fun x => imputeStep_field (fun y => y.tax) (by intro x v; rfl) x)]
    rw [show imputeExcl (imputePrice l) = (imputePrice l).map
        (imputeStep (imputePrice l) (fun x => x.price_excl_tax)
          (fun x v => { x with price_excl_tax := v })) from rfl]
    rw [categoryMean_map (imputePrice l) _ _ c
      (fun x => imputeStep_field (fun y => y.category) (by intro x v; rfl) x)
      (fun x => imputeStep_field (fun y => y.tax) (by intro x v; rfl) x)]
    rw [show imputePrice l = l.map (imputeStep l (fun x => x.price)
        (fun x v => { x with price := v })) from rfl]
    exact categoryMean_map l _ _ c
      (fun x => imputeStep_field (fun y => y.category) (by intro x v; rfl) x)
      (fun x => imputeStep_field (fun y => y.tax) (by intro x v; rfl) x)
  refine ⟨imputeAll_eq_map l, ?_, ?_, ?_, ?_, ?_, ?_, ?_, ?_, ?_, ?_⟩
  · intro hp
    unfold imputeImage
    rw [pT, pI, pE, imputeStep_missing hc hp]
  · intro v hp
    unfold imputeImage
    rw [pT, pI, pE, imputeStep_present hc hp]
  · intro hp
    unfold imputeImage
    rw [eT, eI, imputeStep_missing hc1 ((eP b).trans hp), hmE]
  · intro v hp
    unfold imputeImage
    rw [eT, eI, imputeStep_present hc1 ((eP b).trans hp)]
  · intro hp
    unfold imputeImage
    rw [iT, imputeStep_missing hc2 ((iE _).trans ((iP b).trans hp)), hmI]
  · intro v hp
    unfold imputeImage
    rw [iT, imputeStep_present hc2 ((iE _).trans ((iP b).trans hp))]
  · intro hp
    unfold imputeImage
    rw [imputeStep_missing hc3 ((tI _).trans ((tE _).trans ((tP b).trans hp))), hmT]
  · intro v hp
    unfold imputeImage
    rw [imputeStep_present hc3 ((tI _).trans ((tE _).trans ((tP b).trans hp)))]
  · intro get hnil
    unfold categoryMean
    rw [hnil]
    rfl
  · intro get vs hvs hne
    unfold categoryMean
    rw [hvs]
    cases vs with
    | nil => exact absurd rfl hne
    | cons a t => rfl

theorem groupwise_imputation_witness :
    (imputeImage fictionDemo fictionNull).price = some 15 := by
  have h := (groupwise_imputation fictionDemo fictionNull "Fiction" rfl).2.1 rfl
  rw [h]
  have hv : (fictionDemo.filter (fun x => x.category = some "Fiction")).filterMap
      (fun x => x.price) = [(10 : ℚ), 20] := rfl
  have h2 := (groupwise_imputation fictionDemo fictionNull "Fiction" rfl).2.2.2.2.2.2.2.2.2.2
    (fun x => x.price) [(10 : ℚ), 20] hv (by simp)
  rw [h2]
  norm_num [List.sum_cons, List.sum_nil]

/-- **C10** (confirmed): because imputation groups by category with null keys
excluded and runs before category defaulting, a record whose category is null
at imputation time has its null price fields stay null — it receives no group
mean — and only afterwards is its category set to `"Others"`. -/
theorem null_category_imputation (l : List Book) (b : Book) (hb : b.category = none) :
    imputeAll l = l.map (imputeImage l) ∧
    (b.price = none → (imputeImage l b).price = none) ∧
    (b.price_excl_tax = none → (imputeImage l b).price_excl_tax = none) ∧
    (b.price_incl_tax = none → (imputeImage l b).price_incl_tax = none) ∧
    (b.tax = none → (imputeImage l b).tax = none) ∧
    (imputeImage l b).category = none ∧
    (applyDefaults (imputeImage l b)).category = "Others" := by
  have hb1 : imputeStep l (fun x => x.price) (fun x v => { x with price := v }) b
      = { b with price := none } := imputeStep_cat_none hb
  have hc1 : (imputeStep l (fun x => x.price) (fun x v => { x with price := v }) b).category
      = none := by rw [hb1]; exact hb
  have hb2 : imputeStep (imputePrice l) (fun x => x.price_excl_tax)
      (fun x v => { x with price_excl_tax := v })
      (imputeStep l (fun x => x.price) (fun x v => { x with price := v }) b)
      = { imputeStep l (fun x => x.price) (fun x v => { x with price := v }) b with
          price_excl_tax := none } := imputeStep_cat_none hc1
  have hc2 : (imputeStep (imputePrice l) (fun x => x.price_excl_tax)
      (fun x v => { x with price_excl_tax := v })
      (imputeStep l (fun x => x.price) (fun x v => { x with price := v }) b)).category
      = none := by rw [hb2]; exact hc1
  have hb3 : imputeStep (imputeExcl (imputePrice l)) (fun x => x.price_incl_tax)
      (fun x v => { x with price_incl_tax := v })
      (imputeStep (imputePrice l) (fun x => x.price_excl_tax)
        (fun x v => { x with price_excl_tax := v })
        (imputeStep l (fun x => x.price) (fun x v => { x with price := v }) b))
      = { imputeStep (imputePrice l) (fun x => x.price_excl_tax)
            (fun x v => { x with price_excl_tax := v })
            (imputeStep l (fun x => x.price) (fun x v => { x with price := v }) b) with
          price_incl_tax := none } := imputeStep_cat_none hc2
  have hc3 : (imputeStep (imputeExcl (imputePrice l)) (fun x => x.price_incl_tax)
      (fun x v => { x with price_incl_tax := v })
      (imputeStep (imputePrice l) (fun x => x.price_excl_tax)
        (fun x v => { x with price_excl_tax := v })
        (imputeStep l (fun x => x.price) (fun x v => { x with price := v }) b))).category
      = none := by rw [hb3]; exact hc2
  have hcat : (imputeImage l b).category = none := by
    unfold imputeImage
    rw [imputeStep_cat_none hc3]
    exact hc3
  refine ⟨imputeAll_eq_map l, ?_, ?_, ?_, ?_, hcat, ?_⟩
  · intro _
    unfold imputeImage
    rw [imputeStep_cat_none hc3, hb3, hb2, hb1]
  · intro _
    unfold imputeImage
    rw [imputeStep_cat_none hc3, hb3, hb2]
  · intro _
    unfold imputeImage
    rw [imputeStep_cat_none hc3, hb3]
  · intro _
    unfold imputeImage
    rw [imputeStep_cat_none hc3]
  · have h : (applyDefaults (imputeImage l b)).category
        = (imputeImage l b).category.getD "Others" := rfl
    rw [h, hcat]
    rfl

theorem null_category_imputation_witness :
    (imputeImage [nullCatBook] nullCatBook).price = none ∧
    (applyDefaults (imputeImage [nullCatBook] nullCatBook)).category = "Others" :=
  ⟨(null_category_imputation [nullCatBook] nullCatBook rfl).2.1 rfl,
   (null_category_imputation [nullCatBook] nullCatBook rfl).2.2.2.2.2.2⟩

/-- **C3** (confirmed): running the dimension-population step twice against
the same staging content inserts no duplicate natural-key rows in
`product_type`, `category_info`, `rating_info` or `availability_info` — the
key lists stay duplicate-free and the second run is a no-op on them — while
`books_details` (the documented exception) gains its rows again on the second
run, so some detail row occurs at least twice. -/
theorem dimension_idempotence (d : Dims) (staging : List StagingRow)
    (h1 : d.product_type.Nodup) (h2 : d.category_info.Nodup)
    (h3 : d.rating_info.Nodup) (h4 : d.availability_info.Nodup) :
    ((populateDims d staging).product_type.Nodup ∧
     (populateDims d staging).category_info.Nodup ∧
     (populateDims d staging).rating_info.Nodup ∧
     (populateDims d staging).availability_info.Nodup) ∧
    ((populateDims (populateDims d staging) staging).product_type
        = (populateDims d staging).product_type ∧
     (populateDims (populateDims d staging) staging).category_info
        = (populateDims d staging).category_info ∧
     (populateDims (populateDims d staging) staging).rating_info
        = (populateDims d staging).rating_info ∧
     (populateDims (populateDims d staging) staging).availability_info
        = (populateDims d staging).availability_info) ∧
    (staging ≠ [] →
      ∃ r, 2 ≤ (populateDims (populateDims d staging) staging).books_details.count r) := by
  refine ⟨⟨populateKeyed_nodup _ _ h1, populateKeyed_nodup _ _ h2,
    populateKeyed_nodup _ _ h3, populateKeyed_nodup _ _ h4⟩,
    ⟨populateKeyed_idem _ _, populateKeyed_idem _ _,
     populateKeyed_idem _ _, populateKeyed_idem _ _⟩, ?_⟩
  intro hne
  obtain ⟨s0, hs0⟩ := List.exists_mem_of_ne_nil staging hne
  refine ⟨detailOf s0, ?_⟩
  have hr : detailOf s0 ∈ staging.map detailOf := List.mem_map_of_mem _ hs0
  have h1c : 1 ≤ (staging.map detailOf).count (detailOf s0) := List.count_pos_iff.2 hr
  show 2 ≤ ((d.books_details ++ staging.map detailOf) ++ staging.map detailOf).count
    (detailOf s0)
  rw [List.count_append, List.count_append]
  omega

theorem dimension_idempotence_witness :
    (populateDims (populateDims emptyDims [stagingRowA]) [stagingRowA]).category_info
      = (populateDims emptyDims [stagingRowA]).category_info ∧
    ∃ r, 2 ≤ (populateDims (populateDims emptyDims [stagingRowA])
        [stagingRowA]).books_details.count r :=
  ⟨(dimension_idempotence emptyDims [stagingRowA] List.nodup_nil List.nodup_nil
      List.nodup_nil List.nodup_nil).2.1.2.1,
   (dimension_idempotence emptyDims [stagingRowA] List.nodup_nil List.nodup_nil
      List.nodup_nil List.nodup_nil).2.2 (by simp)⟩

/-- **C4** counterexample: two distinct staging rows sharing the natural key
`(title, upc)` produce two `books_details` rows each matching both staging
rows, so the five-way left join inserts four fact rows for two staging rows —
not exactly one fact row per record as claimed. -/
theorem fact_construction_cex :
    (buildFacts (populateDims emptyDims [dupRowA, dupRowB]) [dupRowA, dupRowB]).length = 4 ∧
    ([dupRowA, dupRowB] : List StagingRow).length = 2 :=
  ⟨by decide, rfl⟩

/-- **C4** (amended): the fact builder inserts one fact row per combination of
matching dimension rows; when each dimension matches every staging row at most
once — automatic for the four scalar dimensions when their key lists are
duplicate-free, and assumed for `books_details`, whose `(title, upc)` pairs
the build does not deduplicate — it inserts exactly one fact row per staging
row, resolving the five foreign keys by natural key with left-outer-match
semantics: a key that fails to resolve yields a null foreign key and the row
is not dropped. -/
theorem fact_construction (d : Dims) (staging : List StagingRow)
    (hbd : ∀ rb ∈ staging, (detailMatches d.books_details rb).length ≤ 1)
    (hc : d.category_info.Nodup) (hr : d.rating_info.Nodup)
    (ha : d.availability_info.Nodup) (hp : d.product_type.Nodup) :
    buildFacts d staging = staging.map (mkFact d) ∧
    (buildFacts d staging).length = staging.length ∧
    (∀ rb : StagingRow,
      ((mkFact d rb).books_details_id = none ↔ detailMatches d.books_details rb = []) ∧
      ((mkFact d rb).category_id = none ↔ categoryMatches d.category_info rb = []) ∧
      ((mkFact d rb).rating_id = none ↔ ratingMatches d.rating_info rb = []) ∧
      ((mkFact d rb).availability_id = none ↔ availabilityMatches d.availability_info rb = []) ∧
      ((mkFact d rb).product_type_id = none ↔ ptypeMatches d.product_type rb = [])) := by
  have hmain : buildFacts d staging = staging.map (mkFact d) := by
    unfold buildFacts
    apply flatMap_singleton_eq_map
    intro rb hrb
    exact factRowsFor_singleton d rb (hbd rb hrb) (idsWhere_len_le_one _ hc _)
      (idsWhere_len_le_one _ hr _) (idsWhere_len_le_one _ ha _) (idsWhere_len_le_one _ hp _)
  refine ⟨hmain, by rw [hmain, List.length_map], ?_⟩
  intro rb
  exact ⟨List.head?_eq_none_iff, List.head?_eq_none_iff, List.head?_eq_none_iff,
    List.head?_eq_none_iff, List.head?_eq_none_iff⟩

theorem fact_construction_witness :
    buildFacts (populateDims emptyDims [upcNullRow]) [upcNullRow]
      = [mkFact (populateDims emptyDims [upcNullRow]) upcNullRow] ∧
    (mkFact (populateDims emptyDims [upcNullRow]) upcNullRow).books_details_id = none ∧
    (mkFact (populateDims emptyDims [upcNullRow]) upcNullRow).category_id = some 0 := by
  have h := fact_construction (populateDims emptyDims [upcNullRow]) [upcNullRow]
    (by decide) (by decide) (by decide) (by decide) (by decide)
  refine ⟨by simpa using h.1, ?_, by decide⟩
  exact ((h.2.2 upcNullRow).1).mpr (by decide)

end BooksETL
